import Mathlib

/-!
A verification model of the dev_notes catalog engine

This file gives a shallow embedding, in Lean 4, of the catalog engine of the
dev_notes repository and proves properties of it.  The repository contains two
variants of the `NotesPortal` class:

* `assets/js/main.js` — the current script, with the category ("caderno")
  system; its functions are embedded under names prefixed with `main` (or
  under their own names when only this variant defines them:
  `detectFileCategory`, `extractFileNumber`, `categorizeFiles`).
* an unnamed legacy script (the older variant of the same class, without
  categories); its functions are embedded under names prefixed with `legacy`.

Modelling conventions:

* JavaScript strings are modelled as `List Char`; `String.toUpperCase` /
  `String.toLowerCase` are modelled character-wise (all characters that the
  classification logic inspects are ASCII).
* File descriptor objects are projected to the fields that the catalog logic
  reads: the classification, ordering, partition and fallback logic reads only
  `name` (and, for remote entries, `type`).  The DOM-facing fields
  (`path`, `size`, `url`, `lastModified`, `download_url`) are not inspected by
  any function modelled here.
* `Array.prototype.sort` with a comparator is modelled by a stable insertion
  sort on the corresponding boolean "less or equal" test;
  `String.prototype.localeCompare` is modelled by code-point order.
* The regular expressions of `extractFileNumber` are modelled by bespoke
  matchers that reproduce the leftmost-first, greedy-with-backtracking
  semantics of each concrete pattern.
* Timestamps (`Date.now()`) are `Nat` milliseconds; the subtractions in the
  cache-age checks agree with the JavaScript ones on all cases that arise
  (a "negative age" counts as fresh in both).
* Network and storage effects are passed in as explicit inputs
  (`FetchResult`, `StoredCache`) and performed loads are reported as an
  explicit list of `LoadAction`s, so that "no I/O happens" is a provable
  statement about the returned action list.
-/

/-! ## Character and character-list utilities -/

/-- Digits 0 to 9, the `\d` class of the source's regular expressions. -/
def isDigitChar (c : Char) : Bool := c.isDigit

/-- ASCII letters, the `[A-Z]` class with the `i` flag. -/
def isLetterChar (c : Char) : Bool := c.isAlpha

/-- Whitespace, as in the `\s` class (the filenames only ever contain `' '`). -/
def isSpaceChar (c : Char) : Bool := c == ' ' || c == '\t' || c == '\n' || c == '\r'

/-- An alphanumeric character (used by the spec's notion of a word character). -/
def isAlphanumeric (c : Char) : Bool := c.isAlpha || c.isDigit

/-- Character-wise model of `String.prototype.toUpperCase`. -/
def toUpperList (s : List Char) : List Char := s.map Char.toUpper

/-- Character-wise model of `String.prototype.toLowerCase`. -/
def toLowerList (s : List Char) : List Char := s.map Char.toLower

/-- Tests whether `hay` starts with `seg` (model of `String.prototype.startsWith`). -/
def startsWith : List Char → List Char → Bool
  | _, [] => true
  | [], _ :: _ => false
  | a :: hay, b :: seg => a == b && startsWith hay seg

/-- Tests whether `seg` occurs somewhere in `hay` (model of `String.prototype.includes`). -/
def hasSub : List Char → List Char → Bool
  | [], seg => seg.isEmpty
  | a :: t, seg => startsWith (a :: t) seg || hasSub t seg

/-- Case-sensitive model of `String.prototype.endsWith`. -/
def endsWithCS (hay suffx : List Char) : Bool :=
  hay.drop (hay.length - suffx.length) == suffx

/-- Value of an all-digit string in base 10 (model of `parseInt(s, 10)` on the
digit groups captured by the source's patterns). -/
def digitsToNat (ds : List Char) : Nat :=
  ds.foldl (fun n c => n * 10 + (c.toNat - 48)) 0

/-- A boolean "less or equal" on character lists in code-point order; stands in
for `a.localeCompare(b) <= 0` in the sort comparators. -/
def charListLe : List Char → List Char → Bool
  | [], _ => true
  | _ :: _, [] => false
  | a :: s, b :: t => if a == b then charListLe s t else decide (a < b)

/-! ## A stable insertion sort

`Array.prototype.sort(cmp)` (stable in ES2019+) is modelled by insertion sort
on the boolean test `le a b` ("`cmp a b ≤ 0`"). -/

def insertLe {α : Type} (le : α → α → Bool) (x : α) : List α → List α
  | [] => [x]
  | y :: t => if le x y then x :: y :: t else y :: insertLe le x t

def sortLe {α : Type} (le : α → α → Bool) : List α → List α
  | [] => []
  | x :: t => insertLe le x (sortLe le t)

/-! ## Category detection (`detectFileCategory`, assets/js/main.js) -/

/-- The fixed priority list of category codes, in the source's order
(`['DPP', 'DC', 'DA', 'RLM', 'PT', 'MT', 'DP', 'INF']`). -/
def categoryCodes : List (List Char) :=
  ["DPP".toList, "DC".toList, "DA".toList, "RLM".toList,
   "PT".toList, "MT".toList, "DP".toList, "INF".toList]

/-- The test the source applies to one candidate code: the upper-cased name
contains the code bracketed by two underscores, two hyphens or two spaces, or starts with
`CODE_` or `CODE-`. -/
def matchesCategory (upper c : List Char) : Bool :=
  hasSub upper ('_' :: (c ++ ['_'])) ||
  hasSub upper ('-' :: (c ++ ['-'])) ||
  hasSub upper (' ' :: (c ++ [' '])) ||
  startsWith upper (c ++ ['_']) ||
  startsWith upper (c ++ ['-'])

/-- Model of `detectFileCategory` (assets/js/main.js): upper-case the name, return the
first code of `categoryCodes` whose delimiter test succeeds, else `GERAL`. -/
def detectFileCategory (fileName : List Char) : List Char :=
  (categoryCodes.find? fun c => matchesCategory (toUpperList fileName) c).getD
    "GERAL".toList

/-! ## Number extraction (`extractFileNumber`, assets/js/main.js)

The source strips the extension with `\.html?$/i` and then tries, in order,
the patterns

1. `/_([A-Z]+)_(\d{3,4})/i`
2. `/([A-Z]+)-(\d{3,4})/i`
3. `/([A-Z]+)\s+(\d{3,4})/i`
4. `/(\d{3,4})(?:\s|[-_]|$)/`
5. `/(\d{3,})/`

returning the digit group of the first pattern that matches anywhere in the
base name (leftmost occurrence); failing all five it falls back to `/(\d+)/`,
and with no digits at all it returns the sentinel `9999`.  Each `patNAt`
function below decides whether pattern N matches at the start of the given
suffix and returns the digit group; `firstMatch` scans the suffixes left to
right, which is exactly the regex engine's leftmost-match rule.  Greedy
matching with backtracking degenerates, for these patterns, to "maximal run,
then the 4-digit try before the 3-digit try", which is what the matchers do. -/

/-- Model of `fileName.replace(/\.html?$/i, '')`. -/
def stripHtmlExt (fileName : List Char) : List Char :=
  if toLowerList (fileName.drop (fileName.length - 5)) == ".html".toList then
    fileName.take (fileName.length - 5)
  else if toLowerList (fileName.drop (fileName.length - 4)) == ".htm".toList then
    fileName.take (fileName.length - 4)
  else fileName

/-- Greedy `(\d{3,4})` with nothing required after it: four digits if the next
four characters are digits, else three. -/
def digits34 : List Char → Option (List Char)
  | a :: b :: c :: rest =>
    if isDigitChar a && isDigitChar b && isDigitChar c then
      match rest with
      | d :: _ => if isDigitChar d then some [a, b, c, d] else some [a, b, c]
      | [] => some [a, b, c]
    else none
  | _ => none

/-- Pattern 1, `/_([A-Z]+)_(\d{3,4})/i`, anchored at the current position. -/
def pat1At : List Char → Option (List Char)
  | '_' :: rest =>
    if (rest.takeWhile isLetterChar).isEmpty then none
    else
      match rest.dropWhile isLetterChar with
      | '_' :: rest2 => digits34 rest2
      | _ => none
  | _ => none

/-- Pattern 2, `/([A-Z]+)-(\d{3,4})/i`, anchored at the current position. -/
def pat2At (s : List Char) : Option (List Char) :=
  if (s.takeWhile isLetterChar).isEmpty then none
  else
    match s.dropWhile isLetterChar with
    | '-' :: rest => digits34 rest
    | _ => none

/-- Pattern 3, `/([A-Z]+)\s+(\d{3,4})/i`, anchored at the current position. -/
def pat3At (s : List Char) : Option (List Char) :=
  if (s.takeWhile isLetterChar).isEmpty then none
  else
    let rest := s.dropWhile isLetterChar
    if (rest.takeWhile isSpaceChar).isEmpty then none
    else digits34 (rest.dropWhile isSpaceChar)

/-- The `(?:\s|[-_]|$)` boundary class of pattern 4 (the `$` case is handled by
`pat4At` reaching the end of the list). -/
def isBoundaryChar (c : Char) : Bool := isSpaceChar c || c == '-' || c == '_'

/-- Pattern 4, `/(\d{3,4})(?:\s|[-_]|$)/`, anchored at the current position:
the greedy 4-digit try needs a boundary (or the end) after the fourth digit,
and the 3-digit try needs one after the third. -/
def pat4At : List Char → Option (List Char)
  | a :: b :: c :: rest =>
    if isDigitChar a && isDigitChar b && isDigitChar c then
      match rest with
      | [] => some [a, b, c]
      | d :: rest2 =>
        if isDigitChar d then
          match rest2 with
          | [] => some [a, b, c, d]
          | e :: _ => if isBoundaryChar e then some [a, b, c, d] else none
        else if isBoundaryChar d then some [a, b, c] else none
    else none
  | _ => none

/-- Pattern 5, `/(\d{3,})/`, anchored at the current position: the maximal
digit run, provided it has at least three digits. -/
def pat5At (s : List Char) : Option (List Char) :=
  let run := s.takeWhile isDigitChar
  if run.length < 3 then none else some run

/-- The final fallback `/(\d+)/`, anchored at the current position. -/
def patAnyAt (s : List Char) : Option (List Char) :=
  let run := s.takeWhile isDigitChar
  if run.isEmpty then none else some run

/-- Leftmost match: try the anchored matcher at every position, left to
right. -/
def firstMatch (m : List Char → Option (List Char)) : List Char → Option (List Char)
  | [] => m []
  | a :: t =>
    match m (a :: t) with
    | some r => some r
    | none => firstMatch m t

/-- Model of `extractFileNumber` (assets/js/main.js). -/
def extractFileNumber (fileName : List Char) : Nat :=
  let baseName := stripHtmlExt fileName
  match firstMatch pat1At baseName with
  | some ds => digitsToNat ds
  | none =>
    match firstMatch pat2At baseName with
    | some ds => digitsToNat ds
    | none =>
      match firstMatch pat3At baseName with
      | some ds => digitsToNat ds
      | none =>
        match firstMatch pat4At baseName with
        | some ds => digitsToNat ds
        | none =>
          match firstMatch pat5At baseName with
          | some ds => digitsToNat ds
          | none =>
            match firstMatch patAnyAt baseName with
            | some ds => digitsToNat ds
            | none => 9999

/-! ## Data model

A raw descriptor (as delivered by the remote listing API) and a catalog file
record.  Both are projected to the fields the catalog logic reads — see the
module comment. -/

structure RawEntry where
  name : List Char
  etype : List Char
  deriving DecidableEq

structure NoteFile where
  name : List Char
  deriving DecidableEq

/-- A categorized catalog entry: `categorizeFiles` pushes a copy of the file
enriched with `category` and `numericOrder`. -/
structure CatFile where
  file : NoteFile
  category : List Char
  numericOrder : Nat
  deriving DecidableEq

/-- The enrichment `{...file, category, numericOrder}` performed in the
`forEach` of `categorizeFiles`. -/
def enrich (f : NoteFile) : CatFile :=
  ⟨f, detectFileCategory f.name, extractFileNumber f.name⟩

/-- The keys of the `this.categories` configuration object, in declaration
order (assets/js/main.js constructor). -/
def categoryKeys : List (List Char) :=
  ["DC".toList, "DA".toList, "RLM".toList, "PT".toList, "MT".toList,
   "DPP".toList, "DP".toList, "INF".toList, "GERAL".toList]

/-- The per-bucket comparator of `categorizeFiles` (numeric order first, then
name), as a boolean "less or equal". -/
def catFileLe (a b : CatFile) : Bool :=
  decide (a.numericOrder < b.numericOrder) ||
  (a.numericOrder == b.numericOrder && charListLe a.file.name b.file.name)

/-- The comparator of the final whole-list sort in `categorizeFiles` (category
key first, numeric order inside one category), as a boolean "less or equal". -/
def catAllLe (a b : NoteFile) : Bool :=
  if detectFileCategory a.name == detectFileCategory b.name then
    decide (extractFileNumber a.name ≤ extractFileNumber b.name)
  else charListLe (detectFileCategory a.name) (detectFileCategory b.name)

/-- The bucket a key receives in `categorizeFiles`, before its sort: the files
detected for that key, in catalog order, enriched. -/
def bucketRaw (files : List NoteFile) (k : List Char) : List CatFile :=
  (files.filter fun f => detectFileCategory f.name == k).map enrich

/-- Model of `categorizeFiles` (assets/js/main.js): clear every bucket, push
each file into the bucket of its detected category, then sort each bucket by
(numericOrder, name).  The result is the association list of buckets in
`categoryKeys` order. -/
def categorizeFiles (files : List NoteFile) : List (List Char × List CatFile) :=
  categoryKeys.map fun k => (k, sortLe catFileLe (bucketRaw files k))

/-! ## Cache validity (`isCacheValid`) -/

/-- The in-memory TTL `this.cacheDuration = 5 * 60 * 1000`. -/
def cacheDuration : Nat := 5 * 60 * 1000

/-- Model of `isCacheValid`: `this.lastUpdate` is truthy (non-null and, being
a number, nonzero), the age is strictly below `cacheDuration`, and the file
list is non-empty. -/
def isCacheValid (lastUpdate : Option Nat) (now : Nat) (filesLength : Nat) : Bool :=
  match lastUpdate with
  | none => false
  | some t => decide (0 < t) && decide (now - t < cacheDuration) && decide (0 < filesLength)

/-! ## The persisted cache (`getCachedData`, localStorage) -/

/-- What a read of the `notes-portal-cache` localStorage key can find: nothing,
unparsable text, or a stored `{files, timestamp, version}` entry. -/
inductive StoredCache
  | absent
  | corrupt
  | entry (files : List NoteFile) (timestamp : Nat)
  deriving DecidableEq

/-- Model of `getCachedData`: absent or unparsable reads give `null`; an entry
older than one hour is removed and gives `null`; otherwise the stored files. -/
def getCachedData (stored : StoredCache) (now : Nat) : Option (List NoteFile) :=
  match stored with
  | .absent => none
  | .corrupt => none
  | .entry files ts => if 3600000 < now - ts then none else some files

/-! ## Remote source -/

/-- Outcome of the `fetch` of the listing API, as seen by `loadFromGitHub`. -/
inductive FetchResult
  | ok (entries : List RawEntry)
  | notFound
  | httpError (status : Nat)
  | networkFailure
  deriving DecidableEq

/-- The filter-and-map both variants apply to a successful listing: keep
file-type entries with the `.html` extension.  (The subsequent
sort-by-`lastModified` of assets/js/main.js is the identity: every entry is
stamped with the same `lastModified`, so the comparator returns `0` for every
pair and the stable sort keeps the order.) -/
def githubFilter (entries : List RawEntry) : List NoteFile :=
  (entries.filter fun e =>
      e.etype == "file".toList && endsWithCS e.name ".html".toList).map
    fun e => NoteFile.mk e.name

/-- Model of `loadFromGitHub` (assets/js/main.js): a 404 throws (the thrown
message is the "pasta notes não encontrada" error), any other failure throws,
and only a successful listing produces files. -/
def mainLoadFromGitHub (resp : FetchResult) : Except (List Char) (List NoteFile) :=
  match resp with
  | .ok entries => .ok (githubFilter entries)
  | .notFound => .error "Pasta notes não encontrada - usando método local".toList
  | .httpError _ => .error "HTTP error".toList
  | .networkFailure => .error "Failed to fetch".toList

/-- Model of `loadFromGitHub` of the legacy script: a 404 sets `this.files`
to the empty list and returns (no throw, so the catch clause — and with it the
persisted cache — is never reached); any other failure is caught in the
function itself, which then falls back to the persisted cache, or to the empty
list when the cache gives `null`.  A successful listing is filtered and sorted
by name. -/
def legacyLoadFromGitHub (resp : FetchResult) (stored : StoredCache) (now : Nat) :
    List NoteFile :=
  match resp with
  | .ok entries => sortLe (fun a b => charListLe a.name b.name) (githubFilter entries)
  | .notFound => []
  | .httpError _ =>
    match getCachedData stored now with
    | some cached => cached
    | none => []
  | .networkFailure =>
    match getCachedData stored now with
    | some cached => cached
    | none => []

/-- The static known-file list of `loadLocalFiles` (assets/js/main.js), an
owner-maintained configuration table of filenames. -/
def knownFiles : List String :=
  ["2025_08_08_RLM_001 - Estruturas logicas .html",
   "2025_08_08_RLM_002 - Estruturas logicas verdade mentira.html",
   "2025_06_25_DC_001 - Introducao a teoria geral dos direitos fundamentais fixacao.html",
   "2025_06_25_DC_002 - Caracteristicas dos direitos fundamentais fixacao.html",
   "2025_06_25_DC_003 - Classificacao dos direitos fundamentais fixacao.html",
   "2025_06_25_DC_004 - Eficacia e aplicacao.html",
   "2025_06_25_DC_005- Teoria dos Direitos Fundamentais Conteúdo e Restrições.html",
   "2025_06_25_DC_006- Teoria dos Direitos Fundamentais Tratados Internacionais de Direitos Humanos.html",
   "2025_06_25_DC_007- Direito a vida fixacao.html",
   "2025_06_25_DC_008- Direito a liberdade fixacao.html",
   "2025_06_25_DC_009- Direito a liberdade de Expressao fixacao.html",
   "2025_06_25_DC_010- Direito a liberdade de Expressao fixacao.html",
   "2025_06_25_DC_011 - Aprofundamento - Eficacia dos direitos fundamentais.html",
   "2025_06_25_DC_012 - Liberdade religiosa fixacao.html",
   "2025_06_25_DC_013 - liberdade de locomocao fixacao.html",
   "2025_06_25_DC_014 - Liberdade de associacao  e reuniaofixacao.html",
   "2025_06_25_DC_015 - Direito a igualdade fixacao.html",
   "2025_06_25_DC_016 - igualdade entre homens e mulheres fixacao.html",
   "2025_06_25_DC_017 - Direito a privacidade fixacao.html",
   "2025_06_25_DC_018 - Direito a privacidade sigilo ao domicilio fixacao.html",
   "2025_06_25_DC_019 - Direito a privacidade sigilo de correspondencia fixacao.html",
   "2025_06_25_DC_020 - Direito a privavidade Sigilo bancario e fiscal fixacao.html",
   "2025_06_25_DC_021 - Direito a privavidade Sigilo de Dados e Comunicações Telefônicas fixacao.html",
   "2025_06_25_DC_022 - Direito a propriedade fixacao.html",
   "2025_06_25_DC_023 - Direitos e Instrumentos de Cidadania perante o Estado e a Justiça fixacao.html",
   "2025_06_25_DC_024 - Direitos individuais proteção ao Direito Adquirido a Coisa Julgada e ao Ato Jurídico Perfeito juiz natural e juri popular fixacao.html",
   "2025_07_08_DC_025 - Principios constitucionais legalidade anterioridade fixacao.html",
   "2025_07_08_DC_026 - mandado de criminalizacao crimes hediondos e equiparaveis fixacao.html",
   "2025_07_08_DC_027 - Garantias penais relativas as prisões fixacao.html",
   "2025_07_08_DC_028 - Garantias processuais dos presos fixacao.html",
   "2025_07_08_DC_029 - Garantias processuais dos presos fixacao.html",
   "2025_07_08_DC_030- Garantias fundamentais habeas corpus fixacao.html",
   "2025_07_08_DC_031- Garantias fundamentais habeas data.html",
   "2025_07_12_DC_032- Garantias fundamentais mandado de segurança parte I fixacao.html",
   "2025_07_14_DC_033 - Mandado de segurança parte II coletivo fixacao.html",
   "2025_07_14_DC_034 - Mandado de injuncao fixacao.html",
   "2025_07_14_DC_035 - Acao popular.html",
   "2025_07_14_DC_036 - Tratados internacionais sobre direitos humanos.html",
   "2025_07_15_DP_001 - Infracao penal fixacao.html",
   "2025_07_15_DP_002 - Fato tipico fixacao.html",
   "2025_07_15_DP_003 - Fato tipico conduta.html",
   "2025_07_16_DP_004 - Dolo.html",
   "2025_07_16_DP_005 - Culpa parte I.html",
   "2025_07_16_DP_006 - Culpa parte II.html",
   "2025_07_18_DP_007 - Resultado.html",
   "2025_07_18_DP_008 - Nexo causal parte I.html",
   "2025_07_18_DP_009 - Nexo causal parte II Concausas.html"]

/-- The expanded emergency list of `debugLocalFiles` (assets/js/main.js), used
only when the static list produced zero files. -/
def debugKnownFiles : List String :=
  ["2025_06_25_DC_001 - Introducao a teoria geral dos direitos fundamentais fixacao.html",
   "2025_06_25_DC_002 - Caracteristicas dos direitos fundamentais fixacao.html",
   "2025_06_25_DC_003 - Classificacao dos direitos fundamentais fixacao.html",
   "2025_06_25_DC_004 - Eficacia e aplicacao.html",
   "2025_06_25_DC_005- Teoria dos Direitos Fundamentais Conteúdo e Restrições.html",
   "2025_06_25_DC_006- Teoria dos Direitos Fundamentais Tratados Internacionais de Direitos Humanos.html",
   "2025_06_25_DC_007- Direito a vida fixacao.html",
   "2025_06_25_DC_008- Direito a liberdade fixacao.html",
   "2025_06_25_DC_009- Direito a liberdade de Expressao fixacao.html",
   "2025_06_25_DC_010- Direito a liberdade de Expressao fixacao.html",
   "2025_06_25_DC_011 - Aprofundamento - Eficacia dos direitos fundamentais.html",
   "2025_06_25_DC_012 - Liberdade religiosa fixacao.html",
   "2025_06_25_DC_013 - liberdade de locomocao fixacao.html",
   "2025_06_25_DC_014 - Liberdade de associacao  e reuniaofixacao.html",
   "2025_06_25_DC_015 - Direito a igualdade fixacao.html",
   "2025_06_25_DC_016 - igualdade entre homens e mulheres fixacao.html",
   "2025_06_25_DC_017 - Direito a privacidade fixacao.html",
   "2025_06_25_DC_018 - Direito a privacidade sigilo ao domicilio fixacao.html",
   "2025_06_25_DC_019 - Direito a privacidade sigilo de correspondencia fixacao.html",
   "2025_06_25_DC_020 - Direito a privavidade Sigilo bancario e fiscal fixacao.html",
   "2025_06_25_DC_021 - Direito a privavidade Sigilo de Dados e Comunicações Telefônicas fixacao.html",
   "2025_06_25_DC_022 - Direito a propriedade fixacao.html",
   "2025_06_25_DC_023 - Direitos e Instrumentos de Cidadania perante o Estado e a Justiça fixacao.html",
   "2025_06_25_DC_024 - Direitos individuais proteção ao Direito Adquirido a Coisa Julgada e ao Ato Jurídico Perfeito juiz natural e juri popular fixacao.html",
   "2025_07_08_DC_025 - Principios constitucionais legalidade anterioridade fixacao.html",
   "2025_07_08_DC_026 - mandado de criminalizacao crimes hediondos e equiparaveis fixacao.html",
   "2025_07_08_DC_027 - Garantias penais relativas as prisões fixacao.html",
   "2025_07_08_DC_028 - Garantias processuais dos presos fixacao.html",
   "2025_07_08_DC_029 - Garantias processuais dos presos fixacao.html",
   "2025_07_08_DC_030- Garantias fundamentais habeas corpus fixacao.html",
   "2025_07_08_DC_031- Garantias fundamentais habeas data.html",
   "2025_07_12_DC_032- Garantias fundamentais mandado de segurança parte I fixacao.html",
   "2025_07_14_DC_033 - Mandado de segurança parte II coletivo fixacao.html",
   "2025_07_14_DC_034 - Mandado de injuncao fixacao.html",
   "2025_07_14_DC_035 - Acao popular.html",
   "2025_07_14_DC_036 - Tratados internacionais sobre direitos humanos.html",
   "2025_07_15_DP_001 - Infracao penal fixacao.html",
   "2025_07_15_DP_002 - Fato tipico fixacao.html",
   "2025_07_15_DP_003 - Fato tipico conduta.html",
   "2025_07_16_DP_004 - Dolo.html",
   "2025_07_16_DP_005 - Culpa parte I.html",
   "2025_07_16_DP_006 - Culpa parte II.html",
   "2025_07_18_DP_007 - Resultado.html",
   "2025_07_18_DP_008 - Nexo causal parte I.html",
   "2025_07_18_DP_009 - Nexo causal parte II Concausas.html",
   "exemplo-nota-interativa.html"]

/-- The note-file records built from the static known-file list. -/
def staticNoteFiles : List NoteFile := knownFiles.map fun n => NoteFile.mk n.toList

/-- The note-file records built from the emergency list. -/
def debugNoteFiles : List NoteFile := debugKnownFiles.map fun n => NoteFile.mk n.toList

/-- The comparator of the sort in `loadLocalFiles` and `debugLocalFiles`
(numeric order first, then name), as a boolean "less or equal". -/
def noteNumLe (a b : NoteFile) : Bool :=
  decide (extractFileNumber a.name < extractFileNumber b.name) ||
  (extractFileNumber a.name == extractFileNumber b.name && charListLe a.name b.name)

/-- Model of `loadLocalFiles` (assets/js/main.js): build records from the
static known-file list and sort them by (number, name).  When that produces
zero files the emergency list of `debugLocalFiles` replaces it (dead for the
actual 47-entry configuration, but part of the source).  The subsequent
`discoverNewFiles` call is the identity on the file list: `testFileExists`
always resolves to `null`, so `newFiles` stays empty and nothing is added. -/
def mainLoadLocalFiles : List NoteFile :=
  let sorted := sortLe noteNumLe staticNoteFiles
  if sorted.length == 0 then sortLe noteNumLe debugNoteFiles else sorted

/-! ## The orchestrator (`loadFiles`) of assets/js/main.js -/

/-- Repo context, as produced by `extractRepoInfo` (owner/repo/branch are not
read by the load logic). -/
structure RepoInfo where
  isLocal : Bool
  useGitHubAPI : Bool
  deriving DecidableEq

/-- The catalog state owned by the portal (assets/js/main.js). -/
structure PortalState where
  files : List NoteFile
  categories : List (List Char × List CatFile)
  activeCategory : List Char
  lastUpdate : Option Nat
  currentRepo : RepoInfo
  deriving DecidableEq

/-- A source load performed by one `loadFiles` call. -/
inductive LoadAction
  | remoteFetch
  | staticLoad
  deriving DecidableEq

/-- Model of `loadFiles` (assets/js/main.js).  Guard order as in the source:
missing container → return; fresh in-memory cache (unless forced) → return the
state unchanged with no source load; otherwise local mode loads the static
list, remote mode tries the listing API and falls back to the static list on
any thrown error (including 404).  After a load, `lastUpdate` is stamped and
`categorizeFiles` rebuilds the buckets and re-sorts the flat list. -/
def mainLoadFiles (s : PortalState) (forceRefresh : Bool) (now : Nat)
    (resp : FetchResult) (hasContainer : Bool) : PortalState × List LoadAction :=
  if !hasContainer then (s, [])
  else if !forceRefresh && isCacheValid s.lastUpdate now s.files.length then (s, [])
  else
    let loaded :=
      if s.currentRepo.useGitHubAPI == false || s.currentRepo.isLocal then
        (mainLoadLocalFiles, [LoadAction.staticLoad])
      else
        match mainLoadFromGitHub resp with
        | .ok fs => (fs, [LoadAction.remoteFetch])
        | .error _ => (mainLoadLocalFiles, [LoadAction.remoteFetch, LoadAction.staticLoad])
    ({ s with
        files := sortLe catAllLe loaded.1,
        categories := categorizeFiles loaded.1,
        lastUpdate := some now },
     loaded.2)

/-! ## The legacy orchestrator -/

/-- The legacy catalog state (no categories). -/
structure LegacyState where
  files : List NoteFile
  lastUpdate : Option Nat
  isLocal : Bool
  deriving DecidableEq

/-- The mock list the legacy script loads in local mode. -/
def legacyMockFiles : List NoteFile :=
  [NoteFile.mk "exemplo-nota-interativa.html".toList,
   NoteFile.mk "minha-primeira-nota.html".toList,
   NoteFile.mk "anotacoes-reuniao.html".toList]

/-- What the legacy `renderFiles` shows: the explicit empty state for an empty
list, otherwise the grid of cards. -/
inductive RenderOutcome
  | emptyState
  | grid (count : Nat)
  deriving DecidableEq

def legacyRender (files : List NoteFile) : RenderOutcome :=
  if files.length == 0 then .emptyState else .grid files.length

/-- Model of `loadFiles` of the legacy script.  `legacyLoadFromGitHub` never
throws (its catch clause swallows every error), so this function always
completes with a state and a render outcome (`none` only for the
missing-container early return). -/
def legacyLoadFiles (s : LegacyState) (forceRefresh : Bool) (now : Nat)
    (resp : FetchResult) (stored : StoredCache) (hasContainer : Bool) :
    LegacyState × Option RenderOutcome :=
  if !hasContainer then (s, none)
  else if !forceRefresh && isCacheValid s.lastUpdate now s.files.length then
    (s, some (legacyRender s.files))
  else
    let files := if s.isLocal then legacyMockFiles else legacyLoadFromGitHub resp stored now
    ({ s with files := files, lastUpdate := some now }, some (legacyRender files))

/-! ## The spec's delimiter-bounded occurrence

Modelled from the spec: "the code must be flanked by a non-alphanumeric
separator or string boundary".  This is the spec's own notion, deliberately
kept separate from `matchesCategory` (the source's test) so that the two can
be compared. -/

def boundaryOkSpec : List Char → Bool
  | [] => true
  | c :: _ => !(isAlphanumeric c)

/-- Code `c` occurs at the very start of `f` with an admissible right flank. -/
def occAtHead (f c : List Char) : Bool :=
  startsWith f c && boundaryOkSpec (f.drop c.length)

/-- Code `c` occurs at some position of `f` with a non-alphanumeric character
directly before it and an admissible right flank. -/
def specDelimAux : List Char → List Char → Bool
  | [], _ => false
  | a :: t, c => (!(isAlphanumeric a) && occAtHead t c) || specDelimAux t c

/-- Code `c` has a delimiter-bounded occurrence in `f` in the spec's sense:
flanked on both sides by a non-alphanumeric separator or a string boundary. -/
def specDelimBounded (f c : List Char) : Bool :=
  occAtHead f c || specDelimAux f c

/-- Auxiliary demonstration catalog used by the concrete witnesses. -/
def demoFiles : List NoteFile :=
  [NoteFile.mk "2025_07_15_DP_001 - Infracao penal fixacao.html".toList,
   NoteFile.mk "Acao popular.html".toList]

/-- Auxiliary demonstration state used by the concrete witnesses. -/
def demoState : PortalState :=
  { files := demoFiles, categories := categorizeFiles demoFiles,
    activeCategory := "todos".toList, lastUpdate := some 500,
    currentRepo := { isLocal := false, useGitHubAPI := true } }

/-- Auxiliary remote-enabled state with an invalid in-memory cache. -/
def remoteEmptyState : PortalState :=
  { files := [], categories := [], activeCategory := "todos".toList,
    lastUpdate := none,
    currentRepo := { isLocal := false, useGitHubAPI := true } }

/-! ## Permutation lemmas for the insertion sort -/

theorem perm_insertLe {α : Type} (le : α → α → Bool) (x : α) :
    ∀ l : List α, List.Perm (insertLe le x l) (x :: l) := by
  intro l
  induction l with
  | nil => simp [insertLe]
  | cons y t ih =>
    simp only [insertLe]
    by_cases h : le x y = true
    · simp [h]
    · simp only [h, if_false]
      exact (ih.cons y).trans (List.Perm.swap x y t)

theorem perm_sortLe {α : Type} (le : α → α → Bool) :
    ∀ l : List α, List.Perm (sortLe le l) l := by
  intro l
  induction l with
  | nil => simp [sortLe]
  | cons x t ih =>
    simp only [sortLe]
    exact (perm_insertLe le x (sortLe le t)).trans (ih.cons x)

theorem length_sortLe {α : Type} (le : α → α → Bool) (l : List α) :
    (sortLe le l).length = l.length :=
  (perm_sortLe le l).length_eq

theorem mem_sortLe {α : Type} (le : α → α → Bool) (l : List α) (x : α) :
    x ∈ sortLe le l ↔ x ∈ l :=
  (perm_sortLe le l).mem_iff

/-! ## Lemmas about the string utilities -/

theorem startsWith_nil (f : List Char) : startsWith f [] = true := by
  cases f <;> rfl

theorem startsWith_append_split (a : List Char) :
    ∀ {f b : List Char}, startsWith f (a ++ b) = true →
      startsWith f a = true ∧ startsWith (f.drop a.length) b = true := by
  induction a with
  | nil =>
    intro f b h
    exact ⟨startsWith_nil f, by simpa using h⟩
  | cons x xs ih =>
    intro f b h
    cases f with
    | nil => simp [startsWith] at h
    | cons y ys =>
      simp only [List.cons_append, startsWith, Bool.and_eq_true] at h
      obtain ⟨hyx, hrest⟩ := h
      obtain ⟨h1, h2⟩ := ih hrest
      refine ⟨?_, ?_⟩
      · simp [startsWith, hyx, h1]
      · simpa using h2

theorem startsWith_single {f : List Char} {y : Char} (h : startsWith f [y] = true) :
    ∃ t, f = y :: t := by
  cases f with
  | nil => simp [startsWith] at h
  | cons a t =>
    simp only [startsWith, Bool.and_eq_true] at h
    exact ⟨t, by rw [eq_of_beq h.1]⟩

theorem occAtHead_of_startsWith_delim {d : Char} (hd : isAlphanumeric d = false)
    {f c : List Char} (h : startsWith f (c ++ [d]) = true) :
    occAtHead f c = true := by
  obtain ⟨h1, h2⟩ := startsWith_append_split c h
  obtain ⟨t, ht⟩ := startsWith_single h2
  simp [occAtHead, h1, ht, boundaryOkSpec, hd]

theorem specDelimAux_of_hasSub {x y : Char} (hx : isAlphanumeric x = false)
    (hy : isAlphanumeric y = false) (c : List Char) :
    ∀ f : List Char, hasSub f (x :: (c ++ [y])) = true → specDelimAux f c = true := by
  intro f
  induction f with
  | nil => intro h; simp [hasSub] at h
  | cons a t ih =>
    intro h
    simp only [hasSub, Bool.or_eq_true] at h
    rcases h with h | h
    · simp only [startsWith, Bool.and_eq_true] at h
      obtain ⟨hax, hrest⟩ := h
      have hax2 : a = x := eq_of_beq hax
      have hocc := occAtHead_of_startsWith_delim hy hrest
      simp [specDelimAux, hax2, hx, hocc]
    · have := ih h
      simp [specDelimAux, this]

/-- Every success of the source's delimiter test is a delimiter-bounded
occurrence in the spec's sense; in particular a code flanked by alphanumeric
characters (a substring of an unrelated word) never matches. -/
theorem matchesCategory_sound {up c : List Char} (h : matchesCategory up c = true) :
    specDelimBounded up c = true := by
  simp only [matchesCategory, Bool.or_eq_true] at h
  rcases h with (((h | h) | h) | h) | h
  · have := specDelimAux_of_hasSub (by decide) (by decide) c up h
    simp [specDelimBounded, this]
  · have := specDelimAux_of_hasSub (by decide) (by decide) c up h
    simp [specDelimBounded, this]
  · have := specDelimAux_of_hasSub (by decide) (by decide) c up h
    simp [specDelimBounded, this]
  · have := occAtHead_of_startsWith_delim (by decide) h
    simp [specDelimBounded, this]
  · have := occAtHead_of_startsWith_delim (by decide) h
    simp [specDelimBounded, this]

/-! ## A first-match characterization of `List.find?` -/

theorem find?_split {α : Type} (p : α → Bool) :
    ∀ l : List α,
      (l.find? p = none ∧ ∀ x ∈ l, p x = false) ∨
      ∃ pre c post, l = pre ++ c :: post ∧ l.find? p = some c ∧ p c = true ∧
        ∀ x ∈ pre, p x = false := by
  intro l
  induction l with
  | nil => left; exact ⟨rfl, by simp⟩
  | cons a t ih =>
    by_cases h : p a = true
    · right
      exact ⟨[], a, t, by simp, by simp [List.find?, h], h, by simp⟩
    · have hfa : p a = false := by simpa using h
      rcases ih with ⟨hnone, hall⟩ | ⟨pre, c, post, hl, hfind, hc, hpre⟩
      · left
        refine ⟨by simp [List.find?, hfa, hnone], ?_⟩
        intro x hx
        rcases List.mem_cons.mp hx with rfl | hx
        · exact hfa
        · exact hall x hx
      · right
        refine ⟨a :: pre, c, post, by rw [hl]; rfl, by simp [List.find?, hfa, hfind], hc, ?_⟩
        intro x hx
        rcases List.mem_cons.mp hx with rfl | hx
        · exact hfa
        · exact hpre x hx

/-! ## Counting lemmas for the partition law -/

theorem sum_map_zero {κ : Type} (keys : List κ) :
    ((keys.map fun _ => (0 : Nat)).sum = 0) := by
  induction keys with
  | nil => rfl
  | cons k ks ih => simp [ih]

theorem sum_map_add {κ : Type} (g h : κ → Nat) :
    ∀ keys : List κ,
      ((keys.map fun k => g k + h k).sum = (keys.map g).sum + (keys.map h).sum) := by
  intro keys
  induction keys with
  | nil => rfl
  | cons k ks ih =>
    simp only [List.map_cons, List.sum_cons, ih]
    omega

theorem sum_map_ind_zero {κ : Type} [BEq κ] [LawfulBEq κ] {x : κ} :
    ∀ ks : List κ, x ∉ ks → ((ks.map fun k => if x == k then 1 else 0).sum = 0) := by
  intro ks
  induction ks with
  | nil => intro _; rfl
  | cons k t ih =>
    intro hx
    have hxk : ¬(x = k) := fun h => hx (h ▸ List.mem_cons_self k t)
    have hb : (x == k) = false := beq_eq_false_iff_ne.mpr hxk
    have hxt : x ∉ t := fun h => hx (List.mem_cons_of_mem k h)
    simp [hb, ih hxt]

theorem sum_map_ind_one {κ : Type} [BEq κ] [LawfulBEq κ] {x : κ} :
    ∀ keys : List κ, keys.Nodup → x ∈ keys →
      ((keys.map fun k => if x == k then 1 else 0).sum = 1) := by
  intro keys
  induction keys with
  | nil => intro _ h; simp at h
  | cons k ks ih =>
    intro hnd hx
    have hnd2 := List.nodup_cons.mp hnd
    rcases List.mem_cons.mp hx with rfl | hx
    · have hzero := sum_map_ind_zero ks hnd2.1
      simp [hzero]
    · have hxk : ¬(x = k) := fun h => hnd2.1 (h ▸ hx)
      have hb : (x == k) = false := beq_eq_false_iff_ne.mpr hxk
      simp [hb, ih hnd2.2 hx]

theorem sum_filter_lengths {α : Type} (key : α → List Char) :
    ∀ (files : List α) (keys : List (List Char)), keys.Nodup →
      (∀ f ∈ files, key f ∈ keys) →
      ((keys.map fun k => (files.filter fun f => key f == k).length).sum
        = files.length) := by
  intro files
  induction files with
  | nil =>
    intro keys _ _
    simp only [List.filter_nil, List.length_nil]
    exact sum_map_zero keys
  | cons f fs ih =>
    intro keys hnd hmem
    have hf : key f ∈ keys := hmem f (List.mem_cons_self f fs)
    have hfs : ∀ g ∈ fs, key g ∈ keys := fun g hg => hmem g (List.mem_cons_of_mem f hg)
    have hpt : (fun k => ((f :: fs).filter fun g => key g == k).length)
        = fun k => (if key f == k then 1 else 0)
            + (fs.filter fun g => key g == k).length := by
      funext k
      by_cases h : (key f == k) = true
      · simp only [List.filter_cons, h, if_true, List.length_cons]
        omega
      · simp [List.filter_cons, h]
    rw [hpt, sum_map_add, sum_map_ind_one keys hnd hf, ih keys hnd hfs]
    simp [Nat.add_comm]

/-! ## Facts about `detectFileCategory` and the buckets -/

/-- Totality: the detected category is always one of the configured bucket
keys (the eight codes plus `GERAL`). -/
theorem detectFileCategory_mem_keys (f : List Char) :
    detectFileCategory f ∈ categoryKeys := by
  unfold detectFileCategory
  rcases find?_split (fun c => matchesCategory (toUpperList f) c) categoryCodes with
    ⟨hn, _⟩ | ⟨pre, c, post, hl, hfind, _, _⟩
  · rw [hn]; decide
  · rw [hfind]
    have hc : c ∈ categoryCodes := by
      rw [hl]
      exact List.mem_append_right _ (List.mem_cons_self c post)
    have hsub : ∀ x ∈ categoryCodes, x ∈ categoryKeys := by decide
    exact hsub c hc

theorem mem_bucketRaw_category {files : List NoteFile} {k : List Char} {cf : CatFile}
    (h : cf ∈ bucketRaw files k) : cf.category = k := by
  simp only [bucketRaw, List.mem_map] at h
  obtain ⟨f, hf, rfl⟩ := h
  have h2 := (List.mem_filter.mp hf).2
  simpa [enrich] using eq_of_beq h2

theorem enrich_mem_bucketRaw {files : List NoteFile} {f : NoteFile} (hf : f ∈ files) :
    enrich f ∈ bucketRaw files (detectFileCategory f.name) := by
  simp only [bucketRaw, List.mem_map]
  exact ⟨f, List.mem_filter.mpr ⟨hf, by simp⟩, rfl⟩

/-- The bucket association list evaluates, entry-wise, to the filtered
catalog. -/
theorem categorizeFiles_lengths (files : List NoteFile) :
    ((categorizeFiles files).map fun p => p.2.length)
      = categoryKeys.map
          fun k => (files.filter fun f => detectFileCategory f.name == k).length := by
  simp only [categorizeFiles, List.map_map]
  refine congrArg (fun F => List.map F categoryKeys) (funext fun k => ?_)
  show (sortLe catFileLe (bucketRaw files k)).length = _
  rw [length_sortLe]
  simp [bucketRaw]

/-! ## Case stability of the substring tests -/

theorem startsWith_map (g : Char → Char) :
    ∀ {f seg : List Char}, startsWith f seg = true →
      startsWith (f.map g) (seg.map g) = true := by
  intro f
  induction f with
  | nil =>
    intro seg h
    cases seg with
    | nil => rfl
    | cons b t => simp [startsWith] at h
  | cons a t ih =>
    intro seg h
    cases seg with
    | nil => exact startsWith_nil _
    | cons b s2 =>
      simp only [startsWith, Bool.and_eq_true] at h
      have hab : a = b := eq_of_beq h.1
      simp only [List.map_cons, startsWith, Bool.and_eq_true]
      exact ⟨by rw [hab]; exact beq_self_eq_true (g b), ih h.2⟩

theorem hasSub_map (g : Char → Char) :
    ∀ {f seg : List Char}, hasSub f seg = true →
      hasSub (f.map g) (seg.map g) = true := by
  intro f
  induction f with
  | nil =>
    intro seg h
    cases seg with
    | nil => rfl
    | cons b t => simp [hasSub] at h
  | cons a t ih =>
    intro seg h
    simp only [hasSub, Bool.or_eq_true] at h
    simp only [List.map_cons, hasSub, Bool.or_eq_true]
    rcases h with h | h
    · left
      simpa using startsWith_map g h
    · right
      exact ih h

/-! ## Behaviour of the orchestrators -/

theorem mainLoadLocalFiles_perm : List.Perm mainLoadLocalFiles staticNoteFiles := by
  have h0 : ((sortLe noteNumLe staticNoteFiles).length == 0) = false := by
    rw [length_sortLe]
    rfl
  simp only [mainLoadLocalFiles, h0, Bool.false_eq_true, if_false]
  exact perm_sortLe _ _

theorem staticNoteFiles_length : staticNoteFiles.length = 47 := by
  simp [staticNoteFiles, knownFiles]

/-- On a cache miss in remote mode, a failing remote fetch makes `loadFiles`
fall back to the static known-file list: both source loads are performed and
the catalog is rebuilt from `loadLocalFiles`. -/
theorem mainLoadFiles_remoteFail {s : PortalState} {now : Nat} {resp : FetchResult}
    {e : List Char}
    (hg : s.currentRepo.useGitHubAPI = true) (hl : s.currentRepo.isLocal = false)
    (hc : isCacheValid s.lastUpdate now s.files.length = false)
    (he : mainLoadFromGitHub resp = .error e) :
    mainLoadFiles s false now resp true
      = ({ s with files := sortLe catAllLe mainLoadLocalFiles,
                  categories := categorizeFiles mainLoadLocalFiles,
                  lastUpdate := some now },
         [LoadAction.remoteFetch, LoadAction.staticLoad]) := by
  simp [mainLoadFiles, hg, hl, hc, he]

/-- The catalog produced by a failing remote fetch is, up to the final sort, the
static known-file list: 47 entries. -/
theorem mainLoadFiles_remoteFail_files {s : PortalState} {now : Nat} {resp : FetchResult}
    {e : List Char}
    (hg : s.currentRepo.useGitHubAPI = true) (hl : s.currentRepo.isLocal = false)
    (hc : isCacheValid s.lastUpdate now s.files.length = false)
    (he : mainLoadFromGitHub resp = .error e) :
    List.Perm (mainLoadFiles s false now resp true).1.files staticNoteFiles ∧
    (mainLoadFiles s false now resp true).1.files.length = 47 := by
  have hfiles : (mainLoadFiles s false now resp true).1.files
      = sortLe catAllLe mainLoadLocalFiles := by
    rw [mainLoadFiles_remoteFail hg hl hc he]
  rw [hfiles]
  have hperm : List.Perm (sortLe catAllLe mainLoadLocalFiles) staticNoteFiles :=
    (perm_sortLe _ _).trans mainLoadLocalFiles_perm
  exact ⟨hperm, by rw [hperm.length_eq, staticNoteFiles_length]⟩

/-- When the base name starts with four digits followed by an underscore,
pattern 4 matches at position zero and captures exactly those four digits. -/
theorem firstMatch_pat4_year {d1 d2 d3 d4 : Char} (rest : List Char)
    (h1 : isDigitChar d1 = true) (h2 : isDigitChar d2 = true)
    (h3 : isDigitChar d3 = true) (h4 : isDigitChar d4 = true) :
    firstMatch pat4At (d1 :: d2 :: d3 :: d4 :: '_' :: rest)
      = some [d1, d2, d3, d4] := by
  simp [firstMatch, pat4At, h1, h2, h3, h4, isBoundaryChar]

set_option maxHeartbeats 1000000 in
theorem categoryKeys_nodup : categoryKeys.Nodup := by decide


/-! ## The claims -/

/-- C1, counterexample: with a remote-enabled context and an HTTP 404 from the
listing API, the loader of assets/js/main.js does NOT return an empty file
list — `loadFromGitHub` throws and `loadFiles` advances to the static
known-file list, producing a 47-entry catalog. -/
theorem catalog_404_cex :
    (mainLoadFiles remoteEmptyState false 0 FetchResult.notFound true).1.files.length
      = 47 :=
  (@mainLoadFiles_remoteFail_files remoteEmptyState 0 FetchResult.notFound
    ("Pasta notes não encontrada - usando método local".toList) rfl rfl rfl rfl).2

/-- C1 (amended): on HTTP 404 the legacy loader returns the empty file list
immediately — independently of whatever the persisted cache holds, so no
further fallback source is consulted — whereas the loader of
assets/js/main.js treats 404 as an error and its `loadFiles` falls back to
the static known-file list (a permutation of the 47 static entries). -/
theorem catalog_404_behavior :
    (∀ (stored : StoredCache) (now : Nat),
      legacyLoadFromGitHub FetchResult.notFound stored now = []) ∧
    (∀ (s : PortalState) (now : Nat),
      s.currentRepo.useGitHubAPI = true → s.currentRepo.isLocal = false →
      isCacheValid s.lastUpdate now s.files.length = false →
      List.Perm (mainLoadFiles s false now FetchResult.notFound true).1.files
          staticNoteFiles ∧
        (mainLoadFiles s false now FetchResult.notFound true).1.files.length = 47) := by
  refine ⟨fun stored now => rfl, fun s now hg hl hc => ?_⟩
  exact mainLoadFiles_remoteFail_files hg hl hc rfl

/-- Witness for C1's theorem: the legacy loader ignores even a fresh cache
entry on 404, and the main pipeline lands on the 47 static entries. -/
theorem catalog_404_behavior_witness :
    legacyLoadFromGitHub FetchResult.notFound (StoredCache.entry demoFiles 0) 5 = [] ∧
    (mainLoadFiles remoteEmptyState false 3 FetchResult.notFound true).1.files.length
      = 47 :=
  ⟨catalog_404_behavior.1 (StoredCache.entry demoFiles 0) 5,
   (catalog_404_behavior.2 remoteEmptyState 3 rfl rfl rfl).2⟩

/-- C2, counterexample: in the legacy pipeline a load in which the remote
source fails (network failure) with no cache entry present yields an empty
catalog — the static known-file list (non-empty, 47 entries) does not
populate it, refuting the claimed fallback order for this load. -/
theorem fallback_chain_cex :
    (legacyLoadFiles { files := [], lastUpdate := none, isLocal := false }
        false 0 FetchResult.networkFailure StoredCache.absent true).1.files = [] ∧
    0 < staticNoteFiles.length := by
  refine ⟨rfl, ?_⟩
  rw [staticNoteFiles_length]
  decide

/-- C2 (amended): in the assets/js/main.js pipeline every load in which the
remote source fails is populated from the static known-file list — non-empty,
and the only two source loads performed are the remote fetch and the static
load, so the persisted cache is never consulted; in the legacy pipeline a
failed remote load is populated from the persisted cache when an entry is
present and fresh (at most one hour old), and with no cache it yields an
empty catalog reported through the explicit empty-state rendering.  Both
orchestrators return a state instead of throwing. -/
theorem fallback_chain_behavior :
    (∀ (s : PortalState) (now : Nat) (resp : FetchResult) (e : List Char),
      s.currentRepo.useGitHubAPI = true → s.currentRepo.isLocal = false →
      isCacheValid s.lastUpdate now s.files.length = false →
      mainLoadFromGitHub resp = .error e →
      List.Perm (mainLoadFiles s false now resp true).1.files staticNoteFiles ∧
        0 < (mainLoadFiles s false now resp true).1.files.length ∧
        (mainLoadFiles s false now resp true).2
          = [LoadAction.remoteFetch, LoadAction.staticLoad]) ∧
    (∀ (files : List NoteFile) (ts now : Nat), now - ts ≤ 3600000 →
      legacyLoadFromGitHub FetchResult.networkFailure (StoredCache.entry files ts) now
        = files) ∧
    (∀ now : Nat,
      legacyLoadFromGitHub FetchResult.networkFailure StoredCache.absent now = [] ∧
      legacyRender [] = RenderOutcome.emptyState) := by
  refine ⟨?_, ?_, fun now => ⟨rfl, rfl⟩⟩
  · intro s now resp e hg hl hc he
    obtain ⟨hperm, hlen⟩ := mainLoadFiles_remoteFail_files hg hl hc he
    refine ⟨hperm, by rw [hlen]; decide, ?_⟩
    rw [mainLoadFiles_remoteFail hg hl hc he]
  · intro files ts now hfresh
    have hn : ¬(3600000 < now - ts) := by omega
    simp [legacyLoadFromGitHub, getCachedData, hn]

/-- Witness for C2's theorem: a fresh cache entry repopulates the legacy
catalog after a remote failure. -/
theorem fallback_chain_behavior_witness :
    legacyLoadFromGitHub FetchResult.networkFailure (StoredCache.entry demoFiles 100) 200
      = demoFiles :=
  fallback_chain_behavior.2.1 demoFiles 100 200 (by omega)

/-- C3, counterexample: in the filename `A.DC.html` the code `DC` is flanked
on both sides by a dot — a non-alphanumeric separator, so the occurrence is
delimiter-bounded in the claim's sense — yet `detectFileCategory` returns the
default `GERAL`, which is not a category code. -/
theorem detectFileCategory_delimiter_cex :
    specDelimBounded "A.DC.html".toList "DC".toList = true ∧
    detectFileCategory "A.DC.html".toList = "GERAL".toList ∧
    "GERAL".toList ∉ categoryCodes := by
  refine ⟨by decide, by decide, by decide⟩

/-- C3 (amended): for every filename, `detectFileCategory` either returns
`GERAL`, exactly when no code of the priority list passes the source's
delimiter test (the code bracketed by the same separator — underscore, hyphen
or space — on both sides, or at the start of the name followed by an
underscore or hyphen); or it returns the first code, in priority order, that
passes the test, and that code then has a delimiter-bounded occurrence in the
spec's sense — so a code occurring only inside an unrelated word, flanked by
alphanumeric characters, never matches. -/
theorem detectFileCategory_characterization (f : List Char) :
    (detectFileCategory f = "GERAL".toList ∧
      ∀ c ∈ categoryCodes, matchesCategory (toUpperList f) c = false) ∨
    (∃ pre post, categoryCodes = pre ++ detectFileCategory f :: post ∧
      matchesCategory (toUpperList f) (detectFileCategory f) = true ∧
      specDelimBounded (toUpperList f) (detectFileCategory f) = true ∧
      ∀ c ∈ pre, matchesCategory (toUpperList f) c = false) := by
  rcases find?_split (fun c => matchesCategory (toUpperList f) c) categoryCodes with
    ⟨hn, hall⟩ | ⟨pre, c, post, hl, hfind, hc, hpre⟩
  · left
    refine ⟨?_, hall⟩
    unfold detectFileCategory
    rw [hn]
    rfl
  · right
    have hdet : detectFileCategory f = c := by
      unfold detectFileCategory
      rw [hfind]
      rfl
    rw [hdet]
    exact ⟨pre, post, hl, hc, matchesCategory_sound hc, hpre⟩

/-- Witness for C3's theorem at the concrete filename
`2025_07_15_DP_001 - Infracao penal fixacao.html`. -/
theorem detectFileCategory_characterization_witness :
    (detectFileCategory "2025_07_15_DP_001 - Infracao penal fixacao.html".toList
        = "GERAL".toList ∧
      ∀ c ∈ categoryCodes,
        matchesCategory
          (toUpperList "2025_07_15_DP_001 - Infracao penal fixacao.html".toList) c
          = false) ∨
    (∃ pre post,
      categoryCodes = pre ++
        detectFileCategory "2025_07_15_DP_001 - Infracao penal fixacao.html".toList
          :: post ∧
      matchesCategory
          (toUpperList "2025_07_15_DP_001 - Infracao penal fixacao.html".toList)
          (detectFileCategory "2025_07_15_DP_001 - Infracao penal fixacao.html".toList)
          = true ∧
      specDelimBounded
          (toUpperList "2025_07_15_DP_001 - Infracao penal fixacao.html".toList)
          (detectFileCategory "2025_07_15_DP_001 - Infracao penal fixacao.html".toList)
          = true ∧
      ∀ c ∈ pre,
        matchesCategory
          (toUpperList "2025_07_15_DP_001 - Infracao penal fixacao.html".toList) c
          = false) :=
  detectFileCategory_characterization
    ("2025_07_15_DP_001 - Infracao penal fixacao.html".toList)

/-- C4: every filename containing the marker `_DPP_` is classified `DPP`, not
`DP`: the code `DPP` is tested before `DP` in the fixed priority list, and the
occurrence of `_DPP_` survives upper-casing. -/
theorem dpp_priority (f : List Char)
    (h : hasSub f ('_' :: ("DPP".toList ++ ['_'])) = true) :
    detectFileCategory f = "DPP".toList ∧ detectFileCategory f ≠ "DP".toList := by
  have hseg : (('_' :: ("DPP".toList ++ ['_'])).map Char.toUpper)
      = '_' :: ("DPP".toList ++ ['_']) := by decide
  have h0 := hasSub_map Char.toUpper h
  rw [hseg] at h0
  have hm : matchesCategory (toUpperList f) "DPP".toList = true := by
    simp only [matchesCategory, Bool.or_eq_true]
    exact Or.inl (Or.inl (Or.inl (Or.inl h0)))
  have hdet : detectFileCategory f = "DPP".toList := by
    unfold detectFileCategory
    have hfind : (categoryCodes.find? fun c => matchesCategory (toUpperList f) c)
        = some "DPP".toList := by
      have hm2 : matchesCategory (toUpperList f) ['D', 'P', 'P'] = true := hm
      simp [categoryCodes, List.find?, hm2]
    rw [hfind]
    rfl
  exact ⟨hdet, by rw [hdet]; decide⟩

/-- Witness for C4's theorem at the spec's literal filename. -/
theorem dpp_priority_witness :
    detectFileCategory "2025_07_08_DPP_001 - x.html".toList = "DPP".toList ∧
    detectFileCategory "2025_07_08_DPP_001 - x.html".toList ≠ "DP".toList :=
  dpp_priority ("2025_07_08_DPP_001 - x.html".toList) (by decide)

/-- C5: `extractFileNumber` is a total function of the filename (so
deterministic), the first matching pattern wins, and on the spec's literal
examples it returns 5, the sentinel 9999, and 42.  The fourth conjunct
exercises the pattern priority directly: pattern 1 (`_CODE_NNN`) wins over the
textually earlier pattern-2 occurrence `AB-111`. -/
theorem extractFileNumber_examples :
    extractFileNumber
        "2025_06_25_DC_005- Teoria dos Direitos Fundamentais Conteúdo e Restrições.html".toList
      = 5 ∧
    extractFileNumber "Acao popular.html".toList = 9999 ∧
    extractFileNumber "file-042.html".toList = 42 ∧
    extractFileNumber "AB-111_CD_222.html".toList = 222 :=
  ⟨by decide, by decide, by decide, by decide⟩

/-- C6: the partition law for `categorizeFiles`: the bucket sizes (including
`GERAL`) sum to the number of files, every entry of a bucket carries that
bucket's key as its category, buckets with different keys are disjoint, and
every input file lands (enriched) in some bucket. -/
theorem categorize_partition (files : List NoteFile) :
    (((categorizeFiles files).map fun p => p.2.length).sum = files.length) ∧
    (∀ p ∈ categorizeFiles files, ∀ cf ∈ p.2, cf.category = p.1) ∧
    (∀ p ∈ categorizeFiles files, ∀ q ∈ categorizeFiles files, p.1 ≠ q.1 →
      ∀ cf ∈ p.2, cf ∉ q.2) ∧
    (∀ f ∈ files, ∃ p, p ∈ categorizeFiles files ∧ enrich f ∈ p.2) := by
  have hcat : ∀ p ∈ categorizeFiles files, ∀ cf ∈ p.2, cf.category = p.1 := by
    intro p hp cf hcf
    simp only [categorizeFiles, List.mem_map] at hp
    obtain ⟨k, hk, rfl⟩ := hp
    exact mem_bucketRaw_category ((mem_sortLe _ _ _).mp hcf)
  refine ⟨?_, hcat, ?_, ?_⟩
  · rw [categorizeFiles_lengths]
    have h := sum_filter_lengths (fun f => detectFileCategory f.name) files categoryKeys
      categoryKeys_nodup (fun f _ => detectFileCategory_mem_keys f.name)
    exact h
  · intro p hp q hq hne cf hcfp hcfq
    exact hne ((hcat p hp cf hcfp).symm.trans (hcat q hq cf hcfq))
  · intro f hf
    refine ⟨(detectFileCategory f.name,
      sortLe catFileLe (bucketRaw files (detectFileCategory f.name))), ?_, ?_⟩
    · simp only [categorizeFiles, List.mem_map]
      exact ⟨detectFileCategory f.name, detectFileCategory_mem_keys f.name, rfl⟩
    · exact (mem_sortLe _ _ _).mpr (enrich_mem_bucketRaw hf)

/-- Witness for C6's theorem: the bucket sizes of the demonstration catalog
sum to its length. -/
theorem categorize_partition_witness :
    (((categorizeFiles demoFiles).map fun p => p.2.length).sum = demoFiles.length) :=
  (categorize_partition demoFiles).1

/-- C7: `isCacheValid` holds exactly when `lastUpdate` is a set (truthy)
timestamp, strictly less than five minutes (300000 ms) have elapsed, and the
file list is non-empty; with `lastUpdate = t` it holds at every instant
`t + d` with `d < 300000` (and a non-empty list), fails at exactly
`t + 300000`, and fails whenever the list is empty, regardless of the
timestamp. -/
theorem isCacheValid_spec :
    (∀ (lu : Option Nat) (now len : Nat),
      isCacheValid lu now len = true ↔
        ∃ t, lu = some t ∧ 0 < t ∧ now - t < cacheDuration ∧ 0 < len) ∧
    (∀ t len : Nat, 0 < t → 0 < len → ∀ d, d < cacheDuration →
      isCacheValid (some t) (t + d) len = true) ∧
    (∀ t len : Nat, isCacheValid (some t) (t + cacheDuration) len = false) ∧
    (∀ (lu : Option Nat) (now : Nat), isCacheValid lu now 0 = false) := by
  refine ⟨?_, ?_, ?_, ?_⟩
  · intro lu now len
    cases lu with
    | none => simp [isCacheValid]
    | some t =>
      simp only [isCacheValid, Bool.and_eq_true, decide_eq_true_eq]
      constructor
      · rintro ⟨⟨h1, h2⟩, h3⟩
        exact ⟨t, rfl, h1, h2, h3⟩
      · rintro ⟨t2, ht2, h1, h2, h3⟩
        cases ht2
        exact ⟨⟨h1, h2⟩, h3⟩
  · intro t len ht hlen d hd
    simp only [isCacheValid, Bool.and_eq_true, decide_eq_true_eq]
    exact ⟨⟨ht, by omega⟩, hlen⟩
  · intro t len
    have h2 : (t + cacheDuration) - t = cacheDuration := by omega
    simp [isCacheValid, h2]
  · intro lu now
    cases lu with
    | none => rfl
    | some t => simp [isCacheValid]

/-- Witness for C7's theorem: a timestamped, non-empty catalog is still valid
one millisecond after the stamp. -/
theorem isCacheValid_spec_witness : isCacheValid (some 1000) (1000 + 1) 3 = true :=
  isCacheValid_spec.2.1 1000 3 (by decide) (by decide) 1 (by decide)

/-- C8: a `loadFiles(false)` call made while the in-memory cache is valid
returns the state unchanged — `files`, `categories` and `lastUpdate` keep
their values — and performs no source load (the action list is empty). -/
theorem loadFiles_cache_hit (s : PortalState) (now : Nat) (resp : FetchResult)
    (h : isCacheValid s.lastUpdate now s.files.length = true) :
    mainLoadFiles s false now resp true = (s, []) := by
  simp [mainLoadFiles, h]

/-- Witness for C8's theorem on the demonstration state (stamped at 500,
queried at 600, two files). -/
theorem loadFiles_cache_hit_witness :
    mainLoadFiles demoState false 600 FetchResult.networkFailure true
      = (demoState, []) :=
  loadFiles_cache_hit demoState 600 FetchResult.networkFailure (by decide)

/-- C9: when the stripped base name starts with a four-digit run (the year of
the date prefix) followed by an underscore and none of the three structured
patterns matches anywhere in the base name — which is what happens when the
sequence number after the category code has fewer than three digits — the
boundary-number pattern matches the year first, and `extractFileNumber`
returns the year. -/
theorem extractFileNumber_year_first {f : List Char} {d1 d2 d3 d4 : Char}
    {rest : List Char}
    (hbase : stripHtmlExt f = d1 :: d2 :: d3 :: d4 :: '_' :: rest)
    (h1 : isDigitChar d1 = true) (h2 : isDigitChar d2 = true)
    (h3 : isDigitChar d3 = true) (h4 : isDigitChar d4 = true)
    (p1 : firstMatch pat1At (stripHtmlExt f) = none)
    (p2 : firstMatch pat2At (stripHtmlExt f) = none)
    (p3 : firstMatch pat3At (stripHtmlExt f) = none) :
    extractFileNumber f = digitsToNat [d1, d2, d3, d4] := by
  have h4m : firstMatch pat4At (stripHtmlExt f) = some [d1, d2, d3, d4] := by
    rw [hbase]
    exact firstMatch_pat4_year rest h1 h2 h3 h4
  simp only [extractFileNumber, p1, p2, p3, h4m]

/-- Witness for C9's theorem: the two-digit sequence number `05` defeats the
structured patterns and the year 2025 is extracted instead of 5. -/
theorem extractFileNumber_year_first_witness :
    extractFileNumber "2025_06_25_DC_05 - x.html".toList = 2025 :=
  (@extractFileNumber_year_first ("2025_06_25_DC_05 - x.html".toList)
      '2' '0' '2' '5' ("06_25_DC_05 - x".toList)
      (by decide) (by decide) (by decide) (by decide) (by decide)
      (by decide) (by decide) (by decide)).trans (by decide)

/-- C10: `detectFileCategory` factors through upper-casing, so any two
filenames that agree up to letter case (equal after upper-casing) are assigned
the same category. -/
theorem detectFileCategory_case_stable (f g : List Char)
    (h : toUpperList f = toUpperList g) :
    detectFileCategory f = detectFileCategory g := by
  unfold detectFileCategory
  rw [h]

/-- Witness for C10's theorem: a lower-cased and an upper-cased variant of the
same name get the same category. -/
theorem detectFileCategory_case_stable_witness :
    detectFileCategory "2025_07_15_dp_001 - infracao penal fixacao.html".toList
      = detectFileCategory "2025_07_15_DP_001 - INFRACAO PENAL FIXACAO.HTML".toList :=
  detectFileCategory_case_stable
    ("2025_07_15_dp_001 - infracao penal fixacao.html".toList)
    ("2025_07_15_DP_001 - INFRACAO PENAL FIXACAO.HTML".toList)
    (by decide)
